import Mathlib

/-!
Shallow embedding of `src/tvs.py` (TVS: a TV-show tracking CLI).

File contents are modelled as already-parsed XML documents (`ShowDoc`);
`ElementTree.parse` on a cache file is therefore the identity on the stored
content.  Directories are association lists from file name to content; a
symlink directory maps a link name to its target file name.  Calendar days
are proleptic-Gregorian ordinals (`Nat`, day 1 = 0001-01-01), exactly the
numbers `datetime.date.toordinal` produces, so Python's date comparisons and
`timedelta` arithmetic become `Int`/`Nat` comparisons and addition.
Python exceptions are modelled by `Except PyErr`; operations that mutate the
store return the successor state alongside the result, plus a `Bool` that
records whether `urllib.request.urlretrieve` was invoked (network fetch).
-/

namespace TVS

/-- Python exception kinds that the script can raise.  `invalidIdentifier`,
`alreadyFollowing` and `notFollowing` are the three `ValueError`s the script
raises itself; the others are built-in exceptions escaping untouched. -/
inductive PyErr where
  | invalidIdentifier
  | alreadyFollowing
  | notFollowing
  | urlError
  | attributeError
  | typeError
  | fileNotFound
  | fileExists
deriving DecidableEq, Repr

/-- An XML element as the script observes it: only its `.text` matters.
`text = none` models an element with no text content. -/
structure Elem where
  text : Option String
deriving DecidableEq, Repr

/-- One `<episode>` element.  Each field is `none` when `Element.find`
returns `None` for the corresponding child. -/
structure Episode where
  seasonnum : Option Elem
  title : Option Elem
  airdate : Option Elem
deriving DecidableEq, Repr

/-- One `<Season>` element: its `no` attribute (`Element.get`, `none` when
absent) and its `<episode>` children in document order. -/
structure Season where
  no : Option String
  episodes : List Episode
deriving DecidableEq, Repr

/-- A show document as returned by the TVRage full-show-info endpoint.
`genres` holds the `<genre>` children of the `<genres>` element when that
element is present; `episodeList` holds the `<Season>` children of the
`<Episodelist>` element when that element is present. -/
structure ShowDoc where
  name : Option Elem
  status : Option Elem
  started : Option Elem
  totalseasons : Option Elem
  showid : Option Elem
  genres : Option (List Elem)
  episodeList : Option (List Season)
deriving DecidableEq, Repr

/-- A cached file: its document content and its modification day
(`os.path.getmtime`, truncated to a date, as an ordinal). -/
structure Entry where
  content : ShowDoc
  mtime : Nat
deriving DecidableEq, Repr

/-- The two temporary cache directories (`CACHE_DIR_RESEARCH`,
`CACHE_DIR_SHOWS`). -/
inductive CacheDir where
  | research
  | shows
deriving DecidableEq, Repr

/-- The on-disk state of the program plus the process-wide connectivity
flag `glob_internet_connection_available`.  `permName` is
`STORAGE_DIR_NAME` (real files), `permId` is `STORAGE_DIR_ID` (symlinks:
link name maps to the target file name inside `STORAGE_DIR_NAME`). -/
structure State where
  permName : List (String × Entry)
  permId : List (String × String)
  cacheResearch : List (String × Entry)
  cacheShows : List (String × Entry)
  connFlag : Bool
deriving DecidableEq, Repr

/-- The outside world: whether the network is up (the probe to
`google.com` succeeds) and what each URL serves (`none` = the GET fails). -/
structure World where
  netUp : Bool
  net : String → Option ShowDoc

/-! ### Association-list directories -/

/-- Look up the first binding of a key (file lookup in a directory). -/
def aget {κ α : Type} [DecidableEq κ] (k : κ) : List (κ × α) → Option α
  | [] => none
  | (k2, v) :: t => if k2 = k then some v else aget k t

/-- Overwrite the first binding of a key, or append a new one (writing a
file; an existing file keeps its directory position). -/
def aset {κ α : Type} [DecidableEq κ] (k : κ) (v : α) : List (κ × α) → List (κ × α)
  | [] => [(k, v)]
  | (k2, v2) :: t => if k2 = k then (k, v) :: t else (k2, v2) :: aset k v t

/-- Delete the first binding of a key (`os.remove`/`os.unlink`). -/
def adel {κ α : Type} [DecidableEq κ] (k : κ) : List (κ × α) → List (κ × α)
  | [] => []
  | (k2, v2) :: t => if k2 = k then t else (k2, v2) :: adel k t

/-! ### String helpers: `str.lower`, `urllib.parse.quote_plus`, `str.lstrip("0")` -/

/-- Python `str.lower()`, restricted to the ASCII range the script's keys
use (show ids and names). -/
def pyLower (s : String) : String :=
  String.mk (s.toList.map Char.toLower)

/-- Uppercase hexadecimal digit of a value below 16 (as `urllib.parse.quote`
emits). -/
def hexDigit (n : Nat) : Char :=
  if n < 10 then Char.ofNat (48 + n) else Char.ofNat (55 + n)

/-- UTF-8 bytes of a single code point (what `quote_plus` percent-encodes
for non-safe characters). -/
def utf8Bytes (n : Nat) : List Nat :=
  if n < 128 then [n]
  else if n < 2048 then [192 + n / 64, 128 + n % 64]
  else if n < 65536 then [224 + n / 4096, 128 + n / 64 % 64, 128 + n % 64]
  else [240 + n / 262144, 128 + n / 4096 % 64, 128 + n / 64 % 64, 128 + n % 64]

/-- Percent-encoding of one byte. -/
def percentByte (b : Nat) : List Char :=
  ['%', hexDigit (b / 16), hexDigit (b % 16)]

/-- Characters `quote_plus` leaves untouched: ASCII alphanumerics and
`_.-~`. -/
def quoteSafe (c : Char) : Bool :=
  c.isAlphanum || c = '_' || c = '.' || c = '-' || c = '~'

/-- Python `urllib.parse.quote_plus`: spaces become `+`, safe characters
stay, everything else is percent-encoded byte by byte. -/
def quote_plus (s : String) : String :=
  String.mk (s.toList.flatMap fun c =>
    if c = ' ' then ['+']
    else if quoteSafe c then [c]
    else (utf8Bytes c.toNat).flatMap percentByte)

/-- The key normalisation `get_root` applies to its `parameter`:
`urllib.parse.quote_plus(parameter.lower())`. -/
def normalizeKey (s : String) : String :=
  quote_plus (pyLower s)

/-- Python `str.lstrip("0")`. -/
def lstrip0 (s : String) : String :=
  String.mk (s.toList.dropWhile fun c => c = '0')

/-- Python `str(x)` on an optional string: `str(None)` is `"None"`. -/
def pyStr : Option String → String
  | some s => s
  | none => "None"

/-! ### Calendar dates

Dates are proleptic-Gregorian ordinals, the integers produced by
`datetime.date.toordinal` (`0001-01-01` is day 1).  Comparison of Python
`date` objects coincides with comparison of their ordinals. -/

/-- Gregorian leap-year test. -/
def isLeapYear (y : Nat) : Bool :=
  (y % 4 = 0 && y % 100 ≠ 0) || y % 400 = 0

/-- Number of days in a month (`datetime` uses this to validate the day). -/
def daysInMonth (y m : Nat) : Nat :=
  if m = 2 then (if isLeapYear y then 29 else 28)
  else if m = 4 || m = 6 || m = 9 || m = 11 then 30
  else 31

/-- Days in year `y` before month `m` (1-based). -/
def daysBeforeMonth (y m : Nat) : Nat :=
  let base :=
    if m = 1 then 0 else if m = 2 then 31 else if m = 3 then 59
    else if m = 4 then 90 else if m = 5 then 120 else if m = 6 then 151
    else if m = 7 then 181 else if m = 8 then 212 else if m = 9 then 243
    else if m = 10 then 273 else if m = 11 then 304 else 334
  if 2 < m && isLeapYear y then base + 1 else base

/-- `datetime.date(y, m, d).toordinal()` for a valid date with `y ≥ 1`. -/
def toOrdinal (y m d : Nat) : Nat :=
  365 * (y - 1) + (y - 1) / 4 + (y - 1) / 400 - (y - 1) / 100 + daysBeforeMonth y m + d

/-- Split a character list at every dash, keeping empty pieces, exactly as
`str.split("-")` does on the corresponding string. -/
def splitDash : List Char → List (List Char)
  | [] => [[]]
  | c :: t =>
    if c = '-' then [] :: splitDash t
    else
      match splitDash t with
      | [] => [[c]]
      | h :: r => (c :: h) :: r

/-- Whether every character is an ASCII digit. -/
def allDigits (l : List Char) : Bool :=
  l.all Char.isDigit

/-- Numeric value of a digit list. -/
def digitsVal (l : List Char) : Nat :=
  l.foldl (fun a c => a * 10 + (c.toNat - 48)) 0

/-- `datetime.datetime.strptime(s, "%Y-%m-%d").date().toordinal()`, as an
`Option`: `none` exactly when `strptime` raises `ValueError`.  The `%Y`
directive matches exactly four digits, `%m` and `%d` one or two, and the
`date` constructor then validates the ranges (year at least 1, month 1-12,
day within the month). -/
def parseDate (s : String) : Option Nat :=
  match splitDash s.toList with
  | [ys, ms, ds] =>
    if ys.length = 4 && allDigits ys && 1 ≤ ms.length && ms.length ≤ 2 && allDigits ms
        && 1 ≤ ds.length && ds.length ≤ 2 && allDigits ds then
      let y := digitsVal ys
      let m := digitsVal ms
      let d := digitsVal ds
      if 1 ≤ y && 1 ≤ m && m ≤ 12 && 1 ≤ d && d ≤ daysInMonth y m then
        some (toOrdinal y m d)
      else none
    else none
  | _ => none

/-! ### Constants, staleness, network, connectivity probe -/

/-- `TVRAGE_API` base URL. -/
def TVRAGE_API : String := "http://services.tvrage.com/feeds/"

/-- `TVRAGE_SEARCH_API`. -/
def TVRAGE_SEARCH_API : String := TVRAGE_API ++ "search.php?show="

/-- `TVRAGE_FULL_SHOW_INFO`. -/
def TVRAGE_FULL_SHOW_INFO : String := TVRAGE_API ++ "full_show_info.php?sid="

/-- `CACHE_LIFETIME = datetime.timedelta(days=1)`, in days. -/
def CACHE_LIFETIME : Nat := 1

/-- The staleness test of `get_root`:
`mtime_date + CACHE_LIFETIME <= today_date`. -/
def stale (mtime today : Nat) : Bool :=
  mtime + CACHE_LIFETIME ≤ today

/-- `urllib.request.urlretrieve(url, ...)`: yields the served document, or
`none` when the request fails (network down or the URL errors), in which
case the Python call raises and the exception propagates. -/
def urlretrieve (w : World) (url : String) : Option ShowDoc :=
  if w.netUp then w.net url else none

/-- `internet_connection_available()`.  The memo flag lives in
`State.connFlag`.  When the flag is unset and the probe fails, the
handler clause `except urllib.URLError` is evaluated; `urllib` has no
attribute `URLError` (the class lives in `urllib.error`), so the lookup
itself raises `AttributeError`, which escapes the function.  Hence the
call either returns `True` or raises; it never returns `False`. -/
def internet_connection_available (w : World) (σ : State) :
    Except PyErr Bool × State :=
  if σ.connFlag then (.ok true, σ)
  else if w.netUp then (.ok true, { σ with connFlag := true })
  else (.error .attributeError, σ)

/-! ### `get_root`: the cache resolver -/

/-- Content of a temporary cache directory. -/
def getCache (σ : State) : CacheDir → List (String × Entry)
  | .research => σ.cacheResearch
  | .shows => σ.cacheShows

/-- Write one entry into a temporary cache directory. -/
def setCacheEntry (σ : State) (dir : CacheDir) (k : String) (e : Entry) : State :=
  match dir with
  | .research => { σ with cacheResearch := aset k e σ.cacheResearch }
  | .shows => { σ with cacheShows := aset k e σ.cacheShows }

/-- The temporary-cache half of `get_root` (the branch taken when
`cache_file_name` is still empty): fetch when the file is absent, or when
it is stale and the connectivity probe succeeds; otherwise serve the
cached copy.  `param` is already normalised.  The returned `Bool` records
whether `urlretrieve` ran. -/
def get_root_temp (w : World) (today : Nat) (σ : State) (cache_dir : CacheDir)
    (url param : String) : Except PyErr ShowDoc × State × Bool :=
  match aget param (getCache σ cache_dir) with
  | none =>
    match urlretrieve w (url ++ param) with
    | none => (.error .urlError, σ, true)
    | some d => (.ok d, setCacheEntry σ cache_dir param ⟨d, today⟩, true)
  | some e =>
    if stale e.mtime today then
      match internet_connection_available w σ with
      | (.error err, σ1) => (.error err, σ1, false)
      | (.ok avail, σ1) =>
        if avail then
          match urlretrieve w (url ++ param) with
          | none => (.error .urlError, σ1, true)
          | some d => (.ok d, setCacheEntry σ1 cache_dir param ⟨d, today⟩, true)
        else (.ok e.content, σ1, false)
    else (.ok e.content, σ, false)

/-- `get_root(cache_dir, url, parameter)`.  For the shows cache it first
consults the permanent store: `STORAGE_DIR_ID/param` is a symlink, and
`os.path.exists` follows it, so the permanent branch applies only when
both the link and its target file exist.  A stale permanent copy is
re-fetched in place (the write goes through the symlink to the
name-keyed file) when the probe succeeds.  Otherwise the temporary cache
is consulted.  Returns the parsed document, the new state, and whether
`urlretrieve` ran. -/
def get_root (w : World) (today : Nat) (σ : State) (cache_dir : CacheDir)
    (url parameter : String) : Except PyErr ShowDoc × State × Bool :=
  let param := normalizeKey parameter
  match cache_dir with
  | .research => get_root_temp w today σ .research url param
  | .shows =>
    match aget param σ.permId with
    | none => get_root_temp w today σ .shows url param
    | some target =>
      match aget target σ.permName with
      | none => get_root_temp w today σ .shows url param
      | some e =>
        if stale e.mtime today then
          match internet_connection_available w σ with
          | (.error err, σ1) => (.error err, σ1, false)
          | (.ok avail, σ1) =>
            if avail then
              match urlretrieve w (url ++ param) with
              | none => (.error .urlError, σ1, true)
              | some d =>
                (.ok d, { σ1 with permName := aset target ⟨d, today⟩ σ1.permName }, true)
            else (.ok e.content, σ1, false)
        else (.ok e.content, σ, false)

/-! ### Show operations, pure parts (everything after the `get_root` call) -/

/-- Result of `info`. -/
structure InfoResult where
  name : String
  started : Option String
  status : Option String
  genres : List String
  totalseasons : Option String
deriving DecidableEq, Repr

/-- The body of `info` after the document is resolved.  `root.find("name")`
returning `None` makes the subsequent `.text` raise `AttributeError`; a
present element with empty text triggers the explicit
`ValueError("Invalid identifier")`.  Each later metadata element is read
the same unguarded way.  The `genres and [...] or []` dance collapses to:
the non-`None` texts of the `<genre>` children, or `[]` when the
`<genres>` element is absent. -/
def info_pure (d : ShowDoc) : Except PyErr InfoResult :=
  match d.name with
  | none => .error .attributeError
  | some el =>
    match el.text with
    | none => .error .invalidIdentifier
    | some nm =>
      match d.started with
      | none => .error .attributeError
      | some sEl =>
        match d.status with
        | none => .error .attributeError
        | some stEl =>
          let gs := match d.genres with
            | none => []
            | some g => g.filterMap Elem.text
          match d.totalseasons with
          | none => .error .attributeError
          | some tsEl =>
            .ok { name := nm, started := sEl.text, status := stEl.text,
                  genres := gs, totalseasons := tsEl.text }

/-- One episode record of `list_episodes`. -/
structure LEEpisode where
  title : Option String
  air_date : Option String
deriving DecidableEq, Repr

/-- Result of `list_episodes`.  `seasons = none` models the `"seasons"` key
being absent from the returned dict (it is only assigned inside the
`if episode_list is not None` block). -/
structure LEResult where
  name : String
  status : Option String
  seasons : Option (List (Option String × List (String × LEEpisode)))
deriving DecidableEq, Repr

/-- Fill one season's ordered episode dict.  A missing `<seasonnum>` or
`<title>` or `<airdate>` element makes `.text` raise `AttributeError`; a
`<seasonnum>` with empty text makes `None.lstrip` raise
`AttributeError`. -/
def buildEpisodesAux (acc : List (String × LEEpisode)) :
    List Episode → Except PyErr (List (String × LEEpisode))
  | [] => .ok acc
  | ep :: rest =>
    match ep.seasonnum with
    | none => .error .attributeError
    | some snEl =>
      match snEl.text with
      | none => .error .attributeError
      | some sn =>
        match ep.title with
        | none => .error .attributeError
        | some tEl =>
          match ep.airdate with
          | none => .error .attributeError
          | some aEl =>
            buildEpisodesAux (aset (lstrip0 sn) ⟨tEl.text, aEl.text⟩ acc) rest

/-- Fill the ordered season dict in document order.  A repeated season
number overwrites the earlier value in place, as `OrderedDict`
re-assignment does. -/
def buildSeasonsAux (acc : List (Option String × List (String × LEEpisode))) :
    List Season → Except PyErr (List (Option String × List (String × LEEpisode)))
  | [] => .ok acc
  | sea :: rest =>
    match buildEpisodesAux [] sea.episodes with
    | .error e => .error e
    | .ok m => buildSeasonsAux (aset sea.no m acc) rest

/-- The body of `list_episodes` after the document is resolved.  Note the
order of the reads: `status` is read before the empty-name check, and the
`"seasons"` key is created only when the `<Episodelist>` element exists. -/
def list_episodes_pure (d : ShowDoc) : Except PyErr LEResult :=
  match d.name with
  | none => .error .attributeError
  | some el =>
    match d.status with
    | none => .error .attributeError
    | some stEl =>
      match el.text with
      | none => .error .invalidIdentifier
      | some nm =>
        match d.episodeList with
        | none => .ok { name := nm, status := stEl.text, seasons := none }
        | some seas =>
          match buildSeasonsAux [] seas with
          | .error e => .error e
          | .ok m => .ok { name := nm, status := stEl.text, seasons := some m }

/-- The episode-carrying fields `step_episode` fills on a match. -/
structure Hit where
  season : Option String
  number : String
  title : Option String
  air_date : String
deriving DecidableEq, Repr

/-- Result of `step_episode`: the show's name and status, and the matched
episode when the scan found one (`episode = none` models the episode keys
being absent from the returned dict). -/
structure StepResult where
  name : String
  status : Option String
  episode : Option Hit
deriving DecidableEq, Repr

/-- The match condition of `step_episode` on a parsed air date (as an
ordinal) against the comparison date. -/
def epMatch (comp : Int) (strict_delay reverse : Bool) (ad : Nat) : Bool :=
  (!reverse && !strict_delay && decide (comp ≤ (ad : Int)))
    || (reverse && !strict_delay && decide ((ad : Int) ≤ comp))
    || (strict_delay && decide ((ad : Int) = comp))

/-- The inner episode loop of `step_episode` over one season's episode
list (already oriented).  A missing `<airdate>` element crashes with
`AttributeError` before the `try`; an `<airdate>` with empty text makes
`strptime(None, ...)` raise `TypeError`, which the `except ValueError`
does not catch; an unparseable date string raises `ValueError`, which is
caught, and the scan continues.  On a match the result fields are built,
where a missing `<seasonnum>`/`<title>` element or empty `<seasonnum>`
text again raises `AttributeError` (uncaught). -/
def scanSeason (comp : Int) (strict_delay reverse : Bool) (sno : Option String) :
    List Episode → Except PyErr (Option Hit)
  | [] => .ok none
  | ep :: rest =>
    match ep.airdate with
    | none => .error .attributeError
    | some aEl =>
      match aEl.text with
      | none => .error .typeError
      | some s =>
        match parseDate s with
        | none => scanSeason comp strict_delay reverse sno rest
        | some ad =>
          if epMatch comp strict_delay reverse ad then
            match ep.seasonnum with
            | none => .error .attributeError
            | some snEl =>
              match snEl.text with
              | none => .error .attributeError
              | some sn =>
                match ep.title with
                | none => .error .attributeError
                | some tEl =>
                  .ok (some { season := sno, number := lstrip0 sn,
                              title := tEl.text, air_date := s })
          else scanSeason comp strict_delay reverse sno rest

/-- The outer season loop of `step_episode` (the season list already
oriented; each season's episodes are oriented here). -/
def scanSeasons (comp : Int) (strict_delay reverse : Bool) :
    List Season → Except PyErr (Option Hit)
  | [] => .ok none
  | sea :: rest =>
    match scanSeason comp strict_delay reverse sea.no
        (if reverse then sea.episodes.reverse else sea.episodes) with
    | .error e => .error e
    | .ok (some h) => .ok (some h)
    | .ok none => scanSeasons comp strict_delay reverse rest

/-- The body of `step_episode` after the document is resolved.
`delay = reverse and -delay or delay` negates the delay when scanning
backwards (for `delay = 0` both branches give `0`); the comparison date
is today plus that signed delay. -/
def step_episode_pure (d : ShowDoc) (today : Nat) (delay : Int)
    (strict_delay reverse : Bool) : Except PyErr StepResult :=
  match d.name with
  | none => .error .attributeError
  | some el =>
    match el.text with
    | none => .error .invalidIdentifier
    | some nm =>
      match d.status with
      | none => .error .attributeError
      | some stEl =>
        let comp : Int := (today : Int) + (if reverse then -delay else delay)
        match d.episodeList with
        | none => .ok { name := nm, status := stEl.text, episode := none }
        | some seas =>
          match scanSeasons comp strict_delay reverse
              (if reverse then seas.reverse else seas) with
          | .error e => .error e
          | .ok h => .ok { name := nm, status := stEl.text, episode := h }

/-! ### Show operations, full (resolution plus pure body) -/

/-- `info(ident)`: resolve through the shows cache, then read the
metadata. -/
def info (w : World) (today : Nat) (σ : State) (ident : String) :
    Except PyErr InfoResult × State × Bool :=
  match get_root w today σ .shows TVRAGE_FULL_SHOW_INFO ident with
  | (.error e, σ1, f) => (.error e, σ1, f)
  | (.ok d, σ1, f) => (info_pure d, σ1, f)

/-- `list_episodes(ident)`. -/
def list_episodes (w : World) (today : Nat) (σ : State) (ident : String) :
    Except PyErr LEResult × State × Bool :=
  match get_root w today σ .shows TVRAGE_FULL_SHOW_INFO ident with
  | (.error e, σ1, f) => (.error e, σ1, f)
  | (.ok d, σ1, f) => (list_episodes_pure d, σ1, f)

/-- `step_episode(ident, delay, strict_delay, reverse)`. -/
def step_episode (w : World) (today : Nat) (σ : State) (ident : String)
    (delay : Int) (strict_delay reverse : Bool) :
    Except PyErr StepResult × State × Bool :=
  match get_root w today σ .shows TVRAGE_FULL_SHOW_INFO ident with
  | (.error e, σ1, f) => (.error e, σ1, f)
  | (.ok d, σ1, f) => (step_episode_pure d today delay strict_delay reverse, σ1, f)

/-- `next_episode(ident, delay, strict_delay)`. -/
def next_episode (w : World) (today : Nat) (σ : State) (ident : String)
    (delay : Int) (strict_delay : Bool) : Except PyErr StepResult × State × Bool :=
  step_episode w today σ ident delay strict_delay false

/-- `previous_episode(ident, delay, strict_delay)`. -/
def previous_episode (w : World) (today : Nat) (σ : State) (ident : String)
    (delay : Int) (strict_delay : Bool) : Except PyErr StepResult × State × Bool :=
  step_episode w today σ ident delay strict_delay true

/-! ### Follow registry -/

/-- `follow(ident)`.  The initial `os.path.exists` check follows the
id-keyed symlink, so it is positive only when both the link and its
target file exist.  On success the resolved document is copied from
`CACHE_DIR_SHOWS/ident` (the raw, un-normalised id) to the name-keyed
file (whose modification day becomes today), and the id-keyed symlink is
created; `os.symlink` raises `FileExistsError` if the link name already
exists (even as a dangling link). -/
def follow (w : World) (today : Nat) (σ : State) (ident : String) :
    Except PyErr String × State × Bool :=
  if ((aget ident σ.permId).bind fun t => aget t σ.permName).isSome then
    (.error .alreadyFollowing, σ, false)
  else
    match get_root w today σ .shows TVRAGE_FULL_SHOW_INFO ident with
    | (.error e, σ1, f) => (.error e, σ1, f)
    | (.ok d, σ1, f) =>
      match d.name with
      | none => (.error .attributeError, σ1, f)
      | some el =>
        match el.text with
        | none => (.error .invalidIdentifier, σ1, f)
        | some nm =>
          let pkey := normalizeKey nm
          match aget ident σ1.cacheShows with
          | none => (.error .fileNotFound, σ1, f)
          | some src =>
            let σ2 := { σ1 with permName := aset pkey ⟨src.content, today⟩ σ1.permName }
            if (aget ident σ2.permId).isSome then (.error .fileExists, σ2, f)
            else (.ok nm, { σ2 with permId := aset ident pkey σ2.permId }, f)

/-- `unfollow(ident)`.  The existence check again follows the symlink;
the name is read from the (possibly just refreshed) resolved document
with no empty-name check; then the link target and the link itself are
removed.  The returned name may be `None` in Python, hence
`Option String`. -/
def unfollow (w : World) (today : Nat) (σ : State) (ident : String) :
    Except PyErr (Option String) × State × Bool :=
  match (aget ident σ.permId).bind fun t => aget t σ.permName with
  | none => (.error .notFollowing, σ, false)
  | some _ =>
    match get_root w today σ .shows TVRAGE_FULL_SHOW_INFO ident with
    | (.error e, σ1, f) => (.error e, σ1, f)
    | (.ok d, σ1, f) =>
      match d.name with
      | none => (.error .attributeError, σ1, f)
      | some el =>
        match aget ident σ1.permId with
        | none => (.error .fileNotFound, σ1, f)
        | some target =>
          (.ok el.text,
           { σ1 with permName := adel target σ1.permName,
                     permId := adel ident σ1.permId }, f)

/-! ### `check_followed_shows` -/

/-- One yielded record of `check_followed_shows` (its value at the moment
of the yield). -/
structure CheckItem where
  name : String
  season : Option String
  number : String
  title : Option String
  air_date : String
deriving DecidableEq, Repr

/-- The generator loop of `check_followed_shows` over the file-name
listing taken once at the start (`os.listdir(STORAGE_DIR_NAME)`).  Each
iteration parses the file's current content, passes its `<showid>` text
to `next_episode` (Python would pass `None` through `str` as `"None"`),
and yields a record when the result carries a `"number"` key.  An
exception raised mid-iteration ends the sequence; the items yielded
before it are kept, and the error is reported alongside. -/
def checkLoop (w : World) (today : Nat) (delay : Int) (strict_delay : Bool) :
    List String → State → (List CheckItem × Option PyErr) × State
  | [], σ => (([], none), σ)
  | fname :: rest, σ =>
    match aget fname σ.permName with
    | none => (([], some .fileNotFound), σ)
    | some e =>
      match e.content.showid with
      | none => (([], some .attributeError), σ)
      | some el =>
        match next_episode w today σ (pyStr el.text) delay strict_delay with
        | (.error err, σ1, _) => (([], some err), σ1)
        | (.ok res, σ1, _) =>
          match res.episode with
          | none => checkLoop w today delay strict_delay rest σ1
          | some h =>
            let item : CheckItem :=
              { name := res.name, season := h.season, number := h.number,
                title := h.title, air_date := h.air_date }
            match checkLoop w today delay strict_delay rest σ1 with
            | ((items, err), σ2) => ((item :: items, err), σ2)

/-- `check_followed_shows(delay, strict_delay)`, fully consumed. -/
def check_followed_shows (w : World) (today : Nat) (σ : State) (delay : Int)
    (strict_delay : Bool) : (List CheckItem × Option PyErr) × State :=
  checkLoop w today delay strict_delay (σ.permName.map Prod.fst) σ

/-! ### Cache clearing -/

/-- `remove_folder_content(folder)`: list the folder once, then unlink
each listed file in turn (in this model every directory entry is a plain
file and every unlink succeeds). -/
def remove_folder_content (folder : List (String × Entry)) : List (String × Entry) :=
  (folder.map Prod.fst).foldl (fun acc k => adel k acc) folder

/-- `clear_cache()`: empty the two temporary cache directories and nothing
else. -/
def clear_cache (σ : State) : State :=
  { σ with cacheResearch := remove_folder_content σ.cacheResearch,
           cacheShows := remove_folder_content σ.cacheShows }

/-! ### Specification-side definitions for the episode scan

These follow the claim's words (flatten in scan order, take the first
match) and are compared against the looped implementation above. -/

/-- Orientation of a list, per the claim's "reversed at both levels when
reverse is set". -/
def orient {α : Type} (reverse : Bool) (l : List α) : List α :=
  if reverse then l.reverse else l

/-- Flatten a season list into (season number, episode) pairs in the
order the claim describes for the inner level; the caller orients the
season list itself. -/
def scanPairs (reverse : Bool) : List Season → List (Option String × Episode)
  | [] => []
  | sea :: rest =>
    (orient reverse sea.episodes).map (fun ep => (sea.no, ep)) ++ scanPairs reverse rest

/-- The claim's scan order: seasons and episodes in document order,
reversed at both levels when `reverse` is set. -/
def claimScanOrder (reverse : Bool) (seas : List Season) :
    List (Option String × Episode) :=
  scanPairs reverse (orient reverse seas)

/-- The parsed air date of an episode, when the element, its text and the
parse all succeed. -/
def parsedAirDate (ep : Episode) : Option Nat :=
  (ep.airdate.bind Elem.text).bind parseDate

/-- The claim's match predicate on a scan-order pair: the parsed air date
satisfies the directional comparison; episodes without a parseable date
never match. -/
def claimMatches (comp : Int) (strict_delay reverse : Bool)
    (p : Option String × Episode) : Bool :=
  match parsedAirDate p.2 with
  | some ad => epMatch comp strict_delay reverse ad
  | none => false

/-- The claim's selection: the first pair in scan order satisfying the
match predicate. -/
def claimFirstMatch (comp : Int) (strict_delay reverse : Bool)
    (seas : List Season) : Option (Option String × Episode) :=
  (claimScanOrder reverse seas).find? (claimMatches comp strict_delay reverse)

/-- The result fields `step_episode` builds from a matched pair. -/
def mkHit (p : Option String × Episode) : Hit :=
  { season := p.1,
    number := lstrip0 ((p.2.seasonnum.bind Elem.text).getD ""),
    title := p.2.title.bind Elem.text,
    air_date := (p.2.airdate.bind Elem.text).getD "" }

/-- Well-formedness of one episode for the scan: the air-date element is
present with text, and the fields read on a match (`seasonnum` text and
the `title` element) are present. -/
def wfEpisode (ep : Episode) : Bool :=
  (ep.airdate.bind Elem.text).isSome && (ep.seasonnum.bind Elem.text).isSome
    && ep.title.isSome

/-- Well-formedness of a show document for the scan: name text present,
status element present, every episode well-formed. -/
def wfShowDoc (d : ShowDoc) : Bool :=
  (d.name.bind Elem.text).isSome && d.status.isSome
    && (d.episodeList.getD []).all fun sea => sea.episodes.all wfEpisode

/-- The next-episode records `check_followed_shows` should yield, per the
claim: one per followed show whose own document yields a qualifying next
episode, carrying that show's own fields; shows with no match contribute
nothing. -/
def specItems (today : Nat) (delay : Int) (strict_delay : Bool)
    (files : List (String × Entry)) : List CheckItem :=
  files.filterMap fun p =>
    match step_episode_pure p.2.content today delay strict_delay false with
    | .ok res =>
      res.episode.map fun h =>
        { name := res.name, season := h.season, number := h.number,
          title := h.title, air_date := h.air_date }
    | .error _ => none

deriving instance DecidableEq for Except

/-! ### Concrete fixtures -/

/-- A world with the network down: the probe fails and every fetch
fails. -/
def wOffline : World := { netUp := false, net := fun _ => none }

/-- Episode airing 2020-01-01 (season episode 01, "Early"). -/
def epEarly : Episode :=
  { seasonnum := some ⟨some "01"⟩, title := some ⟨some "Early"⟩,
    airdate := some ⟨some "2020-01-01"⟩ }

/-- Episode airing 2020-06-01 (season episode 02, "Late"). -/
def epLate : Episode :=
  { seasonnum := some ⟨some "02"⟩, title := some ⟨some "Late"⟩,
    airdate := some ⟨some "2020-06-01"⟩ }

/-- A show with one season holding the 2020-01-01 and 2020-06-01 episodes,
in document order. -/
def exampleDoc : ShowDoc :=
  { name := some ⟨some "Example"⟩, status := some ⟨some "Running"⟩,
    started := some ⟨some "2020-01-01"⟩, totalseasons := some ⟨some "1"⟩,
    showid := some ⟨some "7"⟩, genres := none,
    episodeList := some [⟨some "1", [epEarly, epLate]⟩] }

/-- The ordinal of 2020-03-01, the claims' comparison date. -/
def day20200301 : Nat := toOrdinal 2020 3 1

/-- A state whose shows cache holds `exampleDoc` under id 7, written
today (fresh), with nothing followed. -/
def stateC1 : State :=
  { permName := [], permId := [], cacheResearch := [],
    cacheShows := [("7", ⟨exampleDoc, day20200301⟩)], connFlag := false }

/-- A state whose research cache holds one entry written on 2020-03-01;
at any later day that entry is stale. -/
def stateStaleResearch : State :=
  { permName := [], permId := [], cacheResearch := [("q", ⟨exampleDoc, day20200301⟩)],
    cacheShows := [], connFlag := false }

/-- The example show without any `<Episodelist>` element. -/
def docNoList : ShowDoc :=
  { exampleDoc with episodeList := none }

/-- A state whose shows cache holds `docNoList` under id 8, fresh. -/
def stateC3 : State :=
  { permName := [], permId := [], cacheResearch := [],
    cacheShows := [("8", ⟨docNoList, day20200301⟩)], connFlag := false }

/-- An episode whose `<airdate>` element is present but empty (its `.text`
is `None`). -/
def epEmptyDate : Episode :=
  { seasonnum := some ⟨some "03"⟩, title := some ⟨some "Empty"⟩,
    airdate := some ⟨none⟩ }

/-- The example show with an empty-dated episode placed before the two
dated ones. -/
def docEmptyDate : ShowDoc :=
  { exampleDoc with episodeList := some [⟨some "1", [epEmptyDate, epEarly, epLate]⟩] }

/-- A state whose shows cache holds `docEmptyDate` under id 9, fresh. -/
def stateC4 : State :=
  { permName := [], permId := [], cacheResearch := [],
    cacheShows := [("9", ⟨docEmptyDate, day20200301⟩)], connFlag := false }

/-- The example show with no `<name>` element at all. -/
def docNoName : ShowDoc :=
  { exampleDoc with name := none }

/-- A state whose shows cache holds `docNoName` under id 10, fresh. -/
def stateC5 : State :=
  { permName := [], permId := [], cacheResearch := [],
    cacheShows := [("10", ⟨docNoName, day20200301⟩)], connFlag := false }

/-- An episode whose air-date text is present but not a parseable
date. -/
def epBadDate : Episode :=
  { seasonnum := some ⟨some "04"⟩, title := some ⟨some "Bad"⟩,
    airdate := some ⟨some "0000-00-00"⟩ }

/-- A state in which show 7 is followed: the id-keyed link "7" points to
the name-keyed file "example". -/
def stateC6 : State :=
  { permName := [("example", ⟨exampleDoc, 0⟩)], permId := [("7", "example")],
    cacheResearch := [], cacheShows := [], connFlag := false }

/-- A followed show (id 5, name "Old") whose only episode aired
2020-01-01, so a forward scan on 2020-03-01 finds nothing. -/
def docPast : ShowDoc :=
  { exampleDoc with
    name := some ⟨some "Old"⟩
    showid := some ⟨some "5"⟩
    episodeList := some [⟨some "1", [epEarly]⟩] }

/-- A state with two followed shows, both with fresh permanent records:
"Example" (id 7, has a qualifying next episode on 2020-03-01) and "Old"
(id 5, no qualifying episode). -/
def stateC9 : State :=
  { permName := [("example", ⟨exampleDoc, day20200301⟩), ("old", ⟨docPast, day20200301⟩)],
    permId := [("7", "example"), ("5", "old")],
    cacheResearch := [], cacheShows := [], connFlag := false }

/-- A show named "X" (normalised name key "x"), with id 7. -/
def docX : ShowDoc :=
  { exampleDoc with name := some ⟨some "X"⟩ }

/-- A pre-existing name-keyed record occupying the key "x" before any
follow of show 7. -/
def entryOld : Entry := ⟨docNoList, 0⟩

/-- A state where the name key "x" is already taken by `entryOld`
(referenced by followed id 9), and show 7 (named "X") sits fresh in the
shows cache but is not followed. -/
def stateC7 : State :=
  { permName := [("x", entryOld)], permId := [("9", "x")], cacheResearch := [],
    cacheShows := [("7", ⟨docX, day20200301⟩)], connFlag := false }

/-! ### Helper lemmas: the loop scan equals the first-match description -/

theorem aget_aset_self {κ α : Type} [DecidableEq κ] (k : κ) (v : α) (l : List (κ × α)) :
    aget k (aset k v l) = some v := by
  induction l with
  | nil => simp [aget, aset]
  | cons h t ih =>
    obtain ⟨k2, v2⟩ := h
    by_cases hk : k2 = k
    · simp [aget, aset, hk]
    · simp [aget, aset, hk, ih]

theorem aset_of_aget_none {κ α : Type} [DecidableEq κ] (k : κ) (v : α) (l : List (κ × α))
    (h : aget k l = none) : aset k v l = l ++ [(k, v)] := by
  induction l with
  | nil => simp [aset]
  | cons p t ih =>
    obtain ⟨k2, v2⟩ := p
    by_cases hk : k2 = k
    · simp [aget, hk] at h
    · simp [aget, hk] at h
      simp [aset, hk, ih h]

theorem aget_append_right {κ α : Type} [DecidableEq κ] (k : κ) (l m : List (κ × α))
    (h : aget k l = none) : aget k (l ++ m) = aget k m := by
  induction l with
  | nil => simp
  | cons p t ih =>
    obtain ⟨k2, v2⟩ := p
    by_cases hk : k2 = k
    · simp [aget, hk] at h
    · simp [aget, hk] at h
      simp [aget, hk, ih h]

theorem adel_append_of_aget_none {κ α : Type} [DecidableEq κ] (k : κ) (v : α) (l : List (κ × α))
    (h : aget k l = none) : adel k (l ++ [(k, v)]) = l := by
  induction l with
  | nil => simp [adel]
  | cons p t ih =>
    obtain ⟨k2, v2⟩ := p
    by_cases hk : k2 = k
    · simp [aget, hk] at h
    · simp [aget, hk] at h
      simp [adel, hk, ih h]


theorem find?_append_some {α : Type} (p : α → Bool) (l1 l2 : List α) (x : α)
    (h : l1.find? p = some x) : (l1 ++ l2).find? p = some x := by
  induction l1 with
  | nil => simp [List.find?] at h
  | cons a t ih =>
    cases hp : p a with
    | true => simpa [List.find?, hp] using h
    | false =>
      rw [List.find?_cons_of_neg _ (by simp [hp])] at h
      simpa [List.find?, hp] using ih h

theorem find?_append_none {α : Type} (p : α → Bool) (l1 l2 : List α)
    (h : l1.find? p = none) : (l1 ++ l2).find? p = l2.find? p := by
  induction l1 with
  | nil => simp
  | cons a t ih =>
    cases hp : p a with
    | true => simp [List.find?, hp] at h
    | false =>
      rw [List.find?_cons_of_neg _ (by simp [hp])] at h
      simpa [List.find?, hp] using ih h

theorem scanSeason_eq (comp : Int) (sd rev : Bool) (sno : Option String)
    (eps : List Episode) (h : ∀ ep ∈ eps, wfEpisode ep = true) :
    scanSeason comp sd rev sno eps =
      .ok (((eps.map fun ep => (sno, ep)).find? (claimMatches comp sd rev)).map mkHit) := by
  induction eps with
  | nil => simp [scanSeason]
  | cons ep rest ih =>
    have hep := h ep (by simp)
    have hrest : ∀ e ∈ rest, wfEpisode e = true := fun e he => h e (by simp [he])
    simp only [wfEpisode, Bool.and_eq_true] at hep
    obtain ⟨⟨had, hsn⟩, htl⟩ := hep
    cases h1 : ep.airdate with
    | none => rw [h1] at had; simp at had
    | some aEl =>
      cases h2 : aEl.text with
      | none => rw [h1] at had; simp [h2] at had
      | some s =>
        cases h3 : parseDate s with
        | none =>
          have hm : claimMatches comp sd rev (sno, ep) = false := by
            simp [claimMatches, parsedAirDate, h1, h2, h3]
          simp [scanSeason, h1, h2, h3, List.find?, hm, ih hrest]
        | some ad =>
          cases hmt : epMatch comp sd rev ad with
          | false =>
            have hm : claimMatches comp sd rev (sno, ep) = false := by
              simp [claimMatches, parsedAirDate, h1, h2, h3, hmt]
            simp [scanSeason, h1, h2, h3, hmt, List.find?, hm, ih hrest]
          | true =>
            have hm : claimMatches comp sd rev (sno, ep) = true := by
              simp [claimMatches, parsedAirDate, h1, h2, h3, hmt]
            cases h4 : ep.seasonnum with
            | none => rw [h4] at hsn; simp at hsn
            | some snEl =>
              cases h5 : snEl.text with
              | none => rw [h4] at hsn; simp [h5] at hsn
              | some sn =>
                cases h6 : ep.title with
                | none => rw [h6] at htl; simp at htl
                | some tEl =>
                  simp [scanSeason, h1, h2, h3, hmt, h4, h5, h6, List.find?, hm,
                        mkHit]

theorem scanSeasons_eq (comp : Int) (sd rev : Bool) (ss : List Season)
    (h : ∀ sea ∈ ss, ∀ ep ∈ sea.episodes, wfEpisode ep = true) :
    scanSeasons comp sd rev ss =
      .ok (((scanPairs rev ss).find? (claimMatches comp sd rev)).map mkHit) := by
  induction ss with
  | nil => simp [scanSeasons, scanPairs]
  | cons sea rest ih =>
    have h1 : ∀ ep ∈ orient rev sea.episodes, wfEpisode ep = true := by
      intro ep hep
      apply h sea (by simp)
      cases rev with
      | true => simpa [orient] using hep
      | false => simpa [orient] using hep
    have hrest : ∀ s2 ∈ rest, ∀ ep ∈ s2.episodes, wfEpisode ep = true :=
      fun s2 hs2 => h s2 (by simp [hs2])
    have horient : (if rev then sea.episodes.reverse else sea.episodes)
        = orient rev sea.episodes := rfl
    rw [scanSeasons, horient, scanSeason_eq comp sd rev sea.no _ h1]
    cases hf : ((orient rev sea.episodes).map fun ep => (sea.no, ep)).find?
        (claimMatches comp sd rev) with
    | some p =>
      rw [scanPairs, find?_append_some _ _ _ _ hf]
      simp
    | none =>
      rw [scanPairs, find?_append_none _ _ _ hf]
      simpa using ih hrest

theorem step_episode_pure_eq (d : ShowDoc) (today : Nat) (delay : Int)
    (sd rev : Bool) (el : Elem) (nm : String) (stEl : Elem)
    (hn : d.name = some el) (ht : el.text = some nm) (hst : d.status = some stEl)
    (hwf : ∀ sea ∈ d.episodeList.getD [], ∀ ep ∈ sea.episodes, wfEpisode ep = true) :
    step_episode_pure d today delay sd rev =
      .ok { name := nm, status := stEl.text,
            episode := (claimFirstMatch ((today : Int) + (if rev then -delay else delay))
                sd rev (d.episodeList.getD [])).map mkHit } := by
  cases hel : d.episodeList with
  | none =>
    simp [step_episode_pure, hn, ht, hst, hel, claimFirstMatch, claimScanOrder,
          scanPairs, orient]
  | some seas =>
    rw [hel] at hwf
    have hwf2 : ∀ sea ∈ orient rev seas, ∀ ep ∈ sea.episodes, wfEpisode ep = true := by
      intro sea hsea
      apply hwf sea
      cases rev with
      | true => simpa [orient] using hsea
      | false => simpa [orient] using hsea
    have horient : (if rev then seas.reverse else seas) = orient rev seas := rfl
    simp only [step_episode_pure, hn, ht, hst, hel, horient, Option.getD_some]
    rw [scanSeasons_eq _ _ _ _ hwf2]
    simp [claimFirstMatch, claimScanOrder]

/-! ### Helper lemmas about the resolver and the stores -/

theorem ica_ok (w : World) (σ : State) (b : Bool) (σ1 : State)
    (h : internet_connection_available w σ = (.ok b, σ1)) :
    b = true ∧ σ1.permName = σ.permName ∧ σ1.permId = σ.permId
      ∧ σ1.cacheResearch = σ.cacheResearch ∧ σ1.cacheShows = σ.cacheShows := by
  unfold internet_connection_available at h
  by_cases hc : σ.connFlag
  · simp [hc] at h
    obtain ⟨hb, hσ⟩ := h
    subst hσ
    simp [hb]
  · by_cases hn : w.netUp
    · simp [hc, hn] at h
      obtain ⟨hb, hσ⟩ := h
      subst hσ
      simp [hb]
    · simp [hc, hn] at h

theorem getCache_setCacheEntry (σ : State) (dir : CacheDir) (k : String) (e : Entry) :
    getCache (setCacheEntry σ dir k e) dir = aset k e (getCache σ dir) := by
  cases dir <;> simp [getCache, setCacheEntry]

theorem setCacheEntry_perm (σ : State) (dir : CacheDir) (k : String) (e : Entry) :
    (setCacheEntry σ dir k e).permName = σ.permName
      ∧ (setCacheEntry σ dir k e).permId = σ.permId := by
  cases dir <;> simp [setCacheEntry]

theorem stale_today_false (today : Nat) : stale today today = false := by
  simp [stale, CACHE_LIFETIME]

/-- When a `get_root_temp` call succeeds, the permanent store is untouched
and the consulted cache directory afterwards holds the returned content
under the normalised key, with a fresh modification day. -/
theorem get_root_temp_ok (w : World) (today : Nat) (σ : State) (dir : CacheDir)
    (u p : String) (d : ShowDoc) (σ1 : State) (f : Bool)
    (h : get_root_temp w today σ dir u p = (.ok d, σ1, f)) :
    σ1.permName = σ.permName ∧ σ1.permId = σ.permId
      ∧ ∃ m, aget p (getCache σ1 dir) = some ⟨d, m⟩ ∧ stale m today = false := by
  unfold get_root_temp at h
  cases ha : aget p (getCache σ dir) with
  | none =>
    simp only [ha] at h
    cases hu : urlretrieve w (u ++ p) with
    | none => simp [hu] at h
    | some d2 =>
      simp only [hu, Prod.mk.injEq, Except.ok.injEq] at h
      obtain ⟨hd, hσ, _⟩ := h
      subst hd
      subst hσ
      refine ⟨(setCacheEntry_perm σ dir p ⟨d2, today⟩).1,
              (setCacheEntry_perm σ dir p ⟨d2, today⟩).2, today, ?_, stale_today_false today⟩
      rw [getCache_setCacheEntry]
      exact aget_aset_self p ⟨d2, today⟩ (getCache σ dir)
  | some e =>
    simp only [ha] at h
    cases hs : stale e.mtime today with
    | false =>
      simp only [hs, Bool.false_eq_true, if_false, Prod.mk.injEq, Except.ok.injEq] at h
      obtain ⟨hd, hσ, _⟩ := h
      subst hd
      subst hσ
      exact ⟨rfl, rfl, e.mtime, by simpa using ha, hs⟩
    | true =>
      simp only [hs] at h
      cases hica : internet_connection_available w σ with
      | mk r σ2 =>
        cases r with
        | error err => simp [hica] at h
        | ok avail =>
          obtain ⟨hb, hpn, hpi, hcr, hcs⟩ := ica_ok w σ avail σ2 hica
          subst hb
          simp only [hica, if_true] at h
          cases hu : urlretrieve w (u ++ p) with
          | none => simp [hu] at h
          | some d2 =>
            simp only [hu, Prod.mk.injEq, Except.ok.injEq] at h
            obtain ⟨hd, hσ, _⟩ := h
            subst hd
            subst hσ
            refine ⟨by rw [(setCacheEntry_perm σ2 dir p ⟨d2, today⟩).1, hpn],
                    by rw [(setCacheEntry_perm σ2 dir p ⟨d2, today⟩).2, hpi],
                    today, ?_, stale_today_false today⟩
            rw [getCache_setCacheEntry]
            exact aget_aset_self p ⟨d2, today⟩ (getCache σ2 dir)

/-- A `get_root` call for the shows cache whose id is not in the permanent
id store reduces to the temporary-cache branch. -/
theorem get_root_shows_of_no_perm (w : World) (today : Nat) (σ : State) (u p : String)
    (hid : aget (normalizeKey p) σ.permId = none) :
    get_root w today σ .shows u p = get_root_temp w today σ .shows u (normalizeKey p) := by
  simp [get_root, hid]

/-- A `get_root` call for the shows cache that finds a fresh permanent
record serves it as-is: no fetch, no state change. -/
theorem get_root_perm_fresh (w : World) (today : Nat) (σ : State) (u p : String)
    (target : String) (e : Entry)
    (hid : aget (normalizeKey p) σ.permId = some target)
    (hname : aget target σ.permName = some e)
    (hfresh : stale e.mtime today = false) :
    get_root w today σ .shows u p = (.ok e.content, σ, false) := by
  simp [get_root, hid, hname, hfresh]

/-- The staleness test is exactly "age in whole days meets or exceeds the
one-day cache lifetime". -/
theorem stale_iff_age (m t : Nat) : stale m t = true ↔ CACHE_LIFETIME ≤ t - m := by
  simp only [stale, CACHE_LIFETIME, decide_eq_true_eq]
  omega

/-- A successful `get_root_temp` call immediately repeated on the same day
returns the same content and the same state, with no fetch: the entry it
leaves behind is fresh, so the second call serves it from disk. -/
theorem get_root_temp_consecutive (w : World) (today : Nat) (σ : State) (dir : CacheDir)
    (u p : String) (d : ShowDoc) (σ1 : State) (f : Bool)
    (h : get_root_temp w today σ dir u p = (.ok d, σ1, f)) :
    get_root_temp w today σ1 dir u p = (.ok d, σ1, false) := by
  obtain ⟨_, _, m, hcache, hmf⟩ := get_root_temp_ok w today σ dir u p d σ1 f h
  unfold get_root_temp
  simp [hcache, hmf]

/-- A successful `get_root` call immediately repeated on the same day
returns identical content and an unchanged state, with no network fetch
on the second call. -/
theorem get_root_consecutive (w : World) (today : Nat) (σ : State) (dir : CacheDir)
    (u p : String) (d : ShowDoc) (σ1 : State) (f : Bool)
    (h : get_root w today σ dir u p = (.ok d, σ1, f)) :
    get_root w today σ1 dir u p = (.ok d, σ1, false) := by
  cases dir with
  | research =>
    unfold get_root at h ⊢
    exact get_root_temp_consecutive w today σ .research u (normalizeKey p) d σ1 f h
  | shows =>
    unfold get_root at h ⊢
    cases ha : aget (normalizeKey p) σ.permId with
    | none =>
      simp only [ha] at h
      obtain ⟨hpn, hpi, _, _, _⟩ :=
        get_root_temp_ok w today σ .shows u (normalizeKey p) d σ1 f h
      have ha1 : aget (normalizeKey p) σ1.permId = none := by rw [hpi]; exact ha
      simp only [ha1]
      exact get_root_temp_consecutive w today σ .shows u (normalizeKey p) d σ1 f h
    | some target =>
      simp only [ha] at h
      cases hb : aget target σ.permName with
      | none =>
        simp only [hb] at h
        obtain ⟨hpn, hpi, _, _, _⟩ :=
          get_root_temp_ok w today σ .shows u (normalizeKey p) d σ1 f h
        have ha1 : aget (normalizeKey p) σ1.permId = some target := by rw [hpi]; exact ha
        have hb1 : aget target σ1.permName = none := by rw [hpn]; exact hb
        simp only [ha1, hb1]
        exact get_root_temp_consecutive w today σ .shows u (normalizeKey p) d σ1 f h
      | some e =>
        simp only [hb] at h
        cases hs : stale e.mtime today with
        | false =>
          simp only [hs, Bool.false_eq_true, if_false, Prod.mk.injEq,
                     Except.ok.injEq] at h
          obtain ⟨hd, hσ, _⟩ := h
          subst hd
          subst hσ
          simp only [ha, hb, hs, Bool.false_eq_true, if_false]
        | true =>
          simp only [hs] at h
          cases hica : internet_connection_available w σ with
          | mk r σ2 =>
            cases r with
            | error err => simp [hica] at h
            | ok avail =>
              obtain ⟨hbtrue, hpn2, hpi2, _, _⟩ := ica_ok w σ avail σ2 hica
              subst hbtrue
              simp only [hica, if_true] at h
              cases hu : urlretrieve w (u ++ normalizeKey p) with
              | none => simp [hu] at h
              | some d2 =>
                simp only [hu, Prod.mk.injEq, Except.ok.injEq] at h
                obtain ⟨hd, hσ, _⟩ := h
                subst hd
                subst hσ
                have ha1 : aget (normalizeKey p)
                    ({ σ2 with permName := aset target ⟨d2, today⟩ σ2.permName } : State).permId
                    = some target := by
                  show aget (normalizeKey p) σ2.permId = some target
                  rw [hpi2]; exact ha
                have hb1 : aget target
                    ({ σ2 with permName := aset target ⟨d2, today⟩ σ2.permName } : State).permName
                    = some (⟨d2, today⟩ : Entry) := by
                  show aget target (aset target ⟨d2, today⟩ σ2.permName) = some ⟨d2, today⟩
                  exact aget_aset_self target ⟨d2, today⟩ σ2.permName
                simp only [ha1, hb1, stale_today_false, Bool.false_eq_true, if_false]

theorem wfShowDoc_unpack (d : ShowDoc) (h : wfShowDoc d = true) :
    ∃ el nm stEl, d.name = some el ∧ el.text = some nm ∧ d.status = some stEl
      ∧ ∀ sea ∈ d.episodeList.getD [], ∀ ep ∈ sea.episodes, wfEpisode ep = true := by
  simp only [wfShowDoc, Bool.and_eq_true, List.all_eq_true] at h
  obtain ⟨⟨hn, hs⟩, hall⟩ := h
  cases h1 : d.name with
  | none => rw [h1] at hn; simp at hn
  | some el =>
    rw [h1] at hn
    cases h2 : el.text with
    | none => simp [h2] at hn
    | some nm =>
      cases h3 : d.status with
      | none => rw [h3] at hs; simp at hs
      | some stEl => exact ⟨el, nm, stEl, rfl, h2, rfl, hall⟩

/-- A `step_episode` call whose id is followed with a fresh permanent
record is read-only: it serves the permanent document and changes
nothing. -/
theorem step_episode_perm_fresh (w : World) (today : Nat) (σ : State) (ident : String)
    (delay : Int) (sd rev : Bool) (target : String) (e : Entry)
    (hid : aget (normalizeKey ident) σ.permId = some target)
    (hname : aget target σ.permName = some e)
    (hfresh : stale e.mtime today = false) :
    step_episode w today σ ident delay sd rev =
      (step_episode_pure e.content today delay sd rev, σ, false) := by
  unfold step_episode
  rw [get_root_perm_fresh w today σ TVRAGE_FULL_SHOW_INFO ident target e hid hname hfresh]

theorem checkLoop_eq (w : World) (today : Nat) (delay : Int) (sd : Bool) (σ : State)
    (l : List (String × Entry))
    (hcond : ∀ p ∈ l,
       ∃ sid, p.2.content.showid.bind Elem.text = some sid
         ∧ normalizeKey sid = sid
         ∧ aget sid σ.permId = some p.1
         ∧ aget p.1 σ.permName = some p.2
         ∧ stale p.2.mtime today = false
         ∧ wfShowDoc p.2.content = true) :
    checkLoop w today delay sd (l.map Prod.fst) σ = ((specItems today delay sd l, none), σ) := by
  induction l with
  | nil => simp [checkLoop, specItems]
  | cons p rest ih =>
    obtain ⟨k, e⟩ := p
    obtain ⟨sid, hsid, hnorm, hlink, hlook, hfresh, hwf⟩ := hcond (k, e) (by simp)
    have hrest : ∀ q ∈ rest, _ := fun q hq => hcond q (by simp [hq])
    cases hs1 : e.content.showid with
    | none => rw [hs1] at hsid; simp at hsid
    | some elS =>
      rw [hs1] at hsid
      simp only [Option.some_bind] at hsid
      obtain ⟨el, nm, stEl, hn, ht, hst, hwfe⟩ := wfShowDoc_unpack e.content hwf
      have hstep : step_episode w today σ sid delay sd false =
          (step_episode_pure e.content today delay sd false, σ, false) :=
        step_episode_perm_fresh w today σ sid delay sd false k e
          (by rw [hnorm]; exact hlink) hlook hfresh
      have hpure := step_episode_pure_eq e.content today delay sd false el nm stEl
        hn ht hst hwfe
      simp only [List.map_cons, checkLoop, hlook, hs1, hsid, pyStr, next_episode,
                 hstep, hpure, specItems, List.filterMap_cons]
      cases hcf : claimFirstMatch ((today : Int) + (if false then -delay else delay))
          sd false (e.content.episodeList.getD []) with
      | none =>
        simpa [specItems] using ih hrest
      | some pr =>
        have ihr := ih hrest
        simp only [specItems] at ihr
        simp only [Option.map_some']
        rw [ihr]

theorem remove_folder_content_eq_nil (l : List (String × Entry)) :
    remove_folder_content l = [] := by
  induction l with
  | nil => rfl
  | cons p t ih =>
    obtain ⟨k, v⟩ := p
    have hdel : adel k ((k, v) :: t) = t := by simp [adel]
    simpa [remove_folder_content, hdel] using ih

theorem scanSeason_skip (comp : Int) (sd rev : Bool) (sno : Option String)
    (a b : List Episode) (bad : Episode) (s : String)
    (hbad : bad.airdate = some ⟨some s⟩) (hparse : parseDate s = none) :
    scanSeason comp sd rev sno (a ++ bad :: b) = scanSeason comp sd rev sno (a ++ b) := by
  induction a with
  | nil => simp [scanSeason, hbad, hparse]
  | cons ep t ih =>
    simp only [List.cons_append]
    cases h1 : ep.airdate with
    | none => simp [scanSeason, h1]
    | some aEl =>
      cases h2 : aEl.text with
      | none => simp [scanSeason, h1, h2]
      | some s2 =>
        cases h3 : parseDate s2 with
        | none => simpa [scanSeason, h1, h2, h3] using ih
        | some ad =>
          cases hmt : epMatch comp sd rev ad with
          | true => simp [scanSeason, h1, h2, h3, hmt]
          | false => simpa [scanSeason, h1, h2, h3, hmt] using ih

theorem scanSeasons_congr (comp : Int) (sd rev : Bool) (pre post : List Season)
    (s1 s2 : Season)
    (hscan : scanSeason comp sd rev s1.no (if rev then s1.episodes.reverse else s1.episodes)
           = scanSeason comp sd rev s2.no (if rev then s2.episodes.reverse else s2.episodes)) :
    scanSeasons comp sd rev (pre ++ s1 :: post) = scanSeasons comp sd rev (pre ++ s2 :: post) := by
  induction pre with
  | nil =>
    simp only [List.nil_append, scanSeasons]
    rw [hscan]
  | cons q t ih =>
    simp only [List.cons_append, scanSeasons, List.append_eq]
    rw [ih]

theorem scanSeasons_skip (comp : Int) (sd rev : Bool) (pre post : List Season)
    (sno : Option String) (el1 el2 : List Episode) (bad : Episode) (s : String)
    (hbad : bad.airdate = some ⟨some s⟩) (hparse : parseDate s = none) :
    scanSeasons comp sd rev (orient rev (pre ++ ⟨sno, el1 ++ bad :: el2⟩ :: post))
      = scanSeasons comp sd rev (orient rev (pre ++ ⟨sno, el1 ++ el2⟩ :: post)) := by
  cases rev with
  | false =>
    simp only [orient, if_false, Bool.false_eq_true]
    exact scanSeasons_congr comp sd false pre post ⟨sno, el1 ++ bad :: el2⟩ ⟨sno, el1 ++ el2⟩
      (by simpa using scanSeason_skip comp sd false sno el1 el2 bad s hbad hparse)
  | true =>
    simp only [orient, if_true]
    have hrev : ∀ l : List Episode,
        (pre ++ (⟨sno, l⟩ : Season) :: post).reverse
          = post.reverse ++ (⟨sno, l⟩ : Season) :: pre.reverse := by
      intro l
      simp [List.reverse_append]
    rw [hrev, hrev]
    refine scanSeasons_congr comp sd true post.reverse pre.reverse
      ⟨sno, el1 ++ bad :: el2⟩ ⟨sno, el1 ++ el2⟩ ?_
    have h1 : (el1 ++ bad :: el2).reverse = el2.reverse ++ bad :: el1.reverse := by
      simp [List.reverse_append]
    have h2 : (el1 ++ el2).reverse = el2.reverse ++ el1.reverse := by
      simp [List.reverse_append]
    simpa [h1, h2] using
      scanSeason_skip comp sd true sno el2.reverse el1.reverse bad s hbad hparse

/-! ### Claims -/

/-- C1: for every show document (well-formed name, status and episode
fields) and every (delay, strict, reverse) configuration, `step_episode`
scans seasons and episodes in document order (both levels reversed when
`reverse` is set), compares each episode's parsed air date with the
comparison date `today + delay` (`today - delay` when reverse), and
returns the first episode in scan order satisfying `air_date >= comp`
(forward, non-strict), `air_date <= comp` (reverse, non-strict) or
`air_date == comp` (strict); in particular, on a show with episodes
airing 2020-01-01 and 2020-06-01 and comparison date 2020-03-01 the
forward non-strict scan returns the 2020-06-01 episode and the reverse
scan returns the 2020-01-01 episode. -/
theorem step_episode_first_match :
    (∀ (d : ShowDoc) (today : Nat) (delay : Int) (sd rev : Bool)
       (el : Elem) (nm : String) (stEl : Elem),
      d.name = some el → el.text = some nm → d.status = some stEl →
      (∀ sea ∈ d.episodeList.getD [], ∀ ep ∈ sea.episodes, wfEpisode ep = true) →
      step_episode_pure d today delay sd rev =
        .ok { name := nm, status := stEl.text,
              episode := (claimFirstMatch ((today : Int) + (if rev then -delay else delay))
                  sd rev (d.episodeList.getD [])).map mkHit })
    ∧ (step_episode wOffline day20200301 stateC1 "7" 0 false false).1 =
        .ok { name := "Example", status := some "Running",
              episode := some { season := some "1", number := "2",
                                title := some "Late", air_date := "2020-06-01" } }
    ∧ (step_episode wOffline day20200301 stateC1 "7" 0 false true).1 =
        .ok { name := "Example", status := some "Running",
              episode := some { season := some "1", number := "1",
                                title := some "Early", air_date := "2020-01-01" } } := by
  refine ⟨?_, by decide, by decide⟩
  intro d today delay sd rev el nm stEl hn ht hst hwf
  exact step_episode_pure_eq d today delay sd rev el nm stEl hn ht hst hwf

/-- Witness for C1 at the concrete two-episode show. -/
theorem step_episode_first_match_witness :
    exampleDoc.name = some ⟨some "Example"⟩ ∧
    step_episode_pure exampleDoc day20200301 0 false false =
      .ok { name := "Example", status := Elem.text ⟨some "Running"⟩,
            episode := (claimFirstMatch ((day20200301 : Int) + (if false then -(0 : Int) else 0))
                false false (exampleDoc.episodeList.getD [])).map mkHit } :=
  ⟨rfl, step_episode_first_match.1 exampleDoc day20200301 0 false false
    ⟨some "Example"⟩ "Example" ⟨some "Running"⟩ rfl rfl rfl (by decide)⟩

/-- C2: the staleness test itself is "age in whole days at least the
one-day lifetime", but on the failing input — a stale cached entry, the
connectivity flag unset and the network down — `get_root` does not return
the cached copy silently: the probe's `except urllib.URLError` clause
names a nonexistent attribute, so the call aborts with `AttributeError`
(and no fetch happens). -/
theorem get_root_stale_offline_aborts :
    stale day20200301 (day20200301 + 1) = true ∧
    aget "q" stateStaleResearch.cacheResearch = some ⟨exampleDoc, day20200301⟩ ∧
    stateStaleResearch.connFlag = false ∧ wOffline.netUp = false ∧
    get_root wOffline (day20200301 + 1) stateStaleResearch .research TVRAGE_SEARCH_API "q"
      = (.error .attributeError, stateStaleResearch, false) := by
  exact ⟨by decide, by decide, rfl, rfl, by decide⟩

/-- C3 counterexample: on a document with no episode-list element,
`list_episodes` succeeds but the returned record has no season mapping at
all (`seasons = none`), which is not the claimed empty mapping. -/
theorem list_episodes_absent_element_counterexample :
    (list_episodes wOffline day20200301 stateC3 "8").1 =
      .ok { name := "Example", status := some "Running", seasons := none } ∧
    ({ name := "Example", status := some "Running", seasons := none } : LEResult).seasons
      ≠ some [] := by
  exact ⟨by decide, by decide⟩

/-- C3 amended: on a show document whose episode-list element is absent
(and whose name and status are readable), `list_episodes` succeeds with
no error, but the season mapping is omitted from the result
(`seasons = none`) rather than returned empty. -/
theorem list_episodes_absent_element_ok (d : ShowDoc) (el stEl : Elem) (nm : String)
    (hn : d.name = some el) (hst : d.status = some stEl) (ht : el.text = some nm)
    (hel : d.episodeList = none) :
    list_episodes_pure d = .ok { name := nm, status := stEl.text, seasons := none } := by
  simp [list_episodes_pure, hn, hst, ht, hel]

/-- Witness for the amended C3 at the concrete no-episode-list show. -/
theorem list_episodes_absent_element_ok_witness :
    docNoList.episodeList = none ∧
    list_episodes_pure docNoList =
      .ok { name := "Example", status := Elem.text ⟨some "Running"⟩, seasons := none } :=
  ⟨rfl, list_episodes_absent_element_ok docNoList ⟨some "Example"⟩ ⟨some "Running"⟩
    "Example" rfl rfl rfl rfl⟩

/-- C4 counterexample: an episode whose air-date field is present but
empty is not skipped: `strptime(None, ...)` raises `TypeError`, which the
`except ValueError` does not catch, so the whole operation aborts instead
of continuing to the matching 2020-06-01 episode. -/
theorem step_episode_empty_airdate_counterexample :
    (step_episode wOffline day20200301 stateC4 "9" 0 false false).1 = .error .typeError ∧
    (Except.error .typeError : Except PyErr StepResult) ≠
      .ok { name := "Example", status := some "Running",
            episode := some { season := some "1", number := "2",
                              title := some "Late", air_date := "2020-06-01" } } := by
  exact ⟨by decide, by decide⟩

/-- C4 amended: an episode whose air-date string is present but fails to
parse as a YYYY-MM-DD date is skipped and the scan continues — removing
such an episode from anywhere in the document leaves the result of
`step_episode` unchanged.  (An episode whose air-date field is missing or
empty instead aborts the whole operation, per the counterexample.) -/
theorem step_episode_skips_unparseable (d : ShowDoc) (today : Nat) (delay : Int)
    (sd rev : Bool) (pre post : List Season) (sno : Option String)
    (el1 el2 : List Episode) (bad : Episode) (s : String)
    (hbad : bad.airdate = some ⟨some s⟩) (hparse : parseDate s = none) :
    step_episode_pure { d with episodeList := some (pre ++ ⟨sno, el1 ++ bad :: el2⟩ :: post) }
        today delay sd rev
      = step_episode_pure { d with episodeList := some (pre ++ ⟨sno, el1 ++ el2⟩ :: post) }
        today delay sd rev := by
  cases hn : d.name with
  | none => simp [step_episode_pure, hn]
  | some el =>
    cases ht : el.text with
    | none => simp [step_episode_pure, hn, ht]
    | some nm =>
      cases hst : d.status with
      | none => simp [step_episode_pure, hn, ht, hst]
      | some stEl =>
        simp only [step_episode_pure, hn, ht, hst]
        rw [show (if rev then (pre ++ (⟨sno, el1 ++ bad :: el2⟩ : Season) :: post).reverse
                  else pre ++ (⟨sno, el1 ++ bad :: el2⟩ : Season) :: post)
              = orient rev (pre ++ (⟨sno, el1 ++ bad :: el2⟩ : Season) :: post) from rfl,
            show (if rev then (pre ++ (⟨sno, el1 ++ el2⟩ : Season) :: post).reverse
                  else pre ++ (⟨sno, el1 ++ el2⟩ : Season) :: post)
              = orient rev (pre ++ (⟨sno, el1 ++ el2⟩ : Season) :: post) from rfl,
            scanSeasons_skip _ sd rev pre post sno el1 el2 bad s hbad hparse]

/-- Witness for the amended C4: inserting the unparseable-dated episode
"0000-00-00" between the two dated episodes does not change the
result. -/
theorem step_episode_skips_unparseable_witness :
    parseDate "0000-00-00" = none ∧
    step_episode_pure
        { exampleDoc with episodeList := some ([] ++ (⟨some "1", [epEarly] ++ epBadDate :: [epLate]⟩ : Season) :: []) }
        day20200301 0 false false
      = step_episode_pure
        { exampleDoc with episodeList := some ([] ++ (⟨some "1", [epEarly] ++ [epLate]⟩ : Season) :: []) }
        day20200301 0 false false :=
  ⟨by decide, step_episode_skips_unparseable exampleDoc day20200301 0 false false
    [] [] (some "1") [epEarly] [epLate] epBadDate "0000-00-00" rfl (by decide)⟩

/-- C5 counterexample: a resolved document with no name element at all
makes `info` abort with `AttributeError` (from `None.text`), not with the
`InvalidIdentifier` `ValueError`. -/
theorem info_missing_name_counterexample :
    (info wOffline day20200301 stateC5 "10").1 = .error .attributeError ∧
    (Except.error .attributeError : Except PyErr InfoResult) ≠ .error .invalidIdentifier := by
  exact ⟨by decide, by decide⟩

/-- C5 amended: `info` fails with `InvalidIdentifier` exactly when the
name element is present with empty text; a document lacking the name
element entirely aborts with `AttributeError` instead; and when the name
has text (and the started/status/totalseasons elements are present) the
show's metadata is returned. -/
theorem info_invalid_identifier (d : ShowDoc) :
    (∀ el, d.name = some el → el.text = none →
      info_pure d = .error .invalidIdentifier)
    ∧ (d.name = none → info_pure d = .error .attributeError)
    ∧ (∀ el nm sEl stEl tsEl, d.name = some el → el.text = some nm →
        d.started = some sEl → d.status = some stEl → d.totalseasons = some tsEl →
        info_pure d = .ok
          { name := nm, started := sEl.text, status := stEl.text,
            genres := (match d.genres with
              | none => []
              | some g => g.filterMap Elem.text),
            totalseasons := tsEl.text }) := by
  refine ⟨?_, ?_, ?_⟩
  · intro el hn ht
    simp [info_pure, hn, ht]
  · intro hn
    simp [info_pure, hn]
  · intro el nm sEl stEl tsEl hn ht hsd hst hts
    simp [info_pure, hn, ht, hsd, hst, hts]

/-- Witness for the amended C5: all three branches at concrete
documents. -/
theorem info_invalid_identifier_witness :
    info_pure { exampleDoc with name := some ⟨none⟩ } = .error .invalidIdentifier ∧
    info_pure docNoName = .error .attributeError ∧
    info_pure exampleDoc = .ok
      { name := "Example",
        started := Elem.text ⟨some "2020-01-01"⟩, status := Elem.text ⟨some "Running"⟩,
        genres := (match exampleDoc.genres with
          | none => []
          | some g => g.filterMap Elem.text),
        totalseasons := Elem.text ⟨some "1"⟩ } :=
  ⟨(info_invalid_identifier { exampleDoc with name := some ⟨none⟩ }).1 ⟨none⟩ rfl rfl,
   (info_invalid_identifier docNoName).2.1 rfl,
   (info_invalid_identifier exampleDoc).2.2 ⟨some "Example"⟩ "Example"
     ⟨some "2020-01-01"⟩ ⟨some "Running"⟩ ⟨some "1"⟩ rfl rfl rfl rfl rfl⟩

/-- C6: when an id-keyed record exists in the permanent store (its link
and target file both present, as after any successful follow), a second
`follow` of the same id fails with `AlreadyFollowing` and returns the
state unchanged — no permanent record is touched and nothing is
fetched. -/
theorem follow_already_following (w : World) (today : Nat) (σ : State)
    (ident target : String) (e : Entry)
    (h1 : aget ident σ.permId = some target)
    (h2 : aget target σ.permName = some e) :
    follow w today σ ident = (.error .alreadyFollowing, σ, false) := by
  simp [follow, h1, h2]

/-- Witness for C6 at a concrete followed show. -/
theorem follow_already_following_witness :
    aget "7" stateC6.permId = some "example" ∧
    follow wOffline day20200301 stateC6 "7" = (.error .alreadyFollowing, stateC6, false) :=
  ⟨rfl, follow_already_following wOffline day20200301 stateC6 "7" "example"
    ⟨exampleDoc, 0⟩ rfl rfl⟩

/-- C7 counterexample: when the resolved show's normalised name key is
already occupied by another permanent record, follow-then-unfollow does
not restore the prior store: `follow` overwrites the colliding name-keyed
record (`shutil.copyfile`) and `unfollow` then deletes it, so the
pre-existing record is destroyed. -/
theorem follow_unfollow_collision_counterexample :
    aget "7" stateC7.permId = none ∧
    (follow wOffline day20200301 stateC7 "7").1 = .ok "X" ∧
    ((unfollow wOffline day20200301 ((follow wOffline day20200301 stateC7 "7").2.1) "7").2.1).permName
      ≠ stateC7.permName := by
  exact ⟨rfl, by decide, by decide⟩

/-- C7 amended: for an id not currently followed whose document resolves,
and whose show name's normalised key is not already occupied in the
name-keyed store, `follow` then `unfollow` (same day) restores the
permanent store exactly: the name-keyed payload and id-keyed link created
by `follow` are removed again and every other permanent record is left
as it was. -/
theorem follow_unfollow_round_trip (w : World) (today : Nat) (σ : State) (ident : String)
    (d : ShowDoc) (σ1 : State) (f : Bool) (el : Elem) (nm : String)
    (hid : aget ident σ.permId = none)
    (hnorm : normalizeKey ident = ident)
    (hres : get_root w today σ .shows TVRAGE_FULL_SHOW_INFO ident = (.ok d, σ1, f))
    (hname : d.name = some el) (htext : el.text = some nm)
    (hcoll : aget (normalizeKey nm) σ.permName = none) :
    (follow w today σ ident).1 = .ok nm
      ∧ ((unfollow w today (follow w today σ ident).2.1 ident).2.1).permName = σ.permName
      ∧ ((unfollow w today (follow w today σ ident).2.1 ident).2.1).permId = σ.permId
      ∧ (unfollow w today (follow w today σ ident).2.1 ident).1 = .ok (some nm) := by
  have hid2 : aget (normalizeKey ident) σ.permId = none := by rw [hnorm]; exact hid
  have htemp : get_root_temp w today σ .shows TVRAGE_FULL_SHOW_INFO (normalizeKey ident)
      = (.ok d, σ1, f) := by
    rw [← get_root_shows_of_no_perm w today σ TVRAGE_FULL_SHOW_INFO ident hid2]
    exact hres
  obtain ⟨hpn, hpi, m, hcache, hmf⟩ :=
    get_root_temp_ok w today σ .shows TVRAGE_FULL_SHOW_INFO (normalizeKey ident) d σ1 f htemp
  rw [hnorm] at hcache
  have hcache2 : aget ident σ1.cacheShows = some ⟨d, m⟩ := hcache
  have hnf : ((aget ident σ.permId).bind fun t => aget t σ.permName) = none := by
    rw [hid]; rfl
  have hid1 : aget ident σ1.permId = none := by rw [hpi]; exact hid
  have hfoll : follow w today σ ident =
      (.ok nm,
       { σ1 with
         permName := aset (normalizeKey nm) ⟨d, today⟩ σ1.permName
         permId := aset ident (normalizeKey nm) σ1.permId }, f) := by
    unfold follow
    rw [hnf]
    simp only [Option.isSome_none, Bool.false_eq_true, if_false, hres, hname, htext,
               hcache2, hid1]
  have hpn3 : aset (normalizeKey nm) (⟨d, today⟩ : Entry) σ1.permName
      = σ.permName ++ [(normalizeKey nm, ⟨d, today⟩)] := by
    rw [hpn]
    exact aset_of_aget_none (normalizeKey nm) ⟨d, today⟩ σ.permName hcoll
  have hpi3 : aset ident (normalizeKey nm) σ1.permId
      = σ.permId ++ [(ident, normalizeKey nm)] := by
    rw [hpi]
    exact aset_of_aget_none ident (normalizeKey nm) σ.permId hid
  have hg1 : aget ident (aset ident (normalizeKey nm) σ1.permId) = some (normalizeKey nm) := by
    rw [hpi3, aget_append_right ident σ.permId _ hid]
    simp [aget]
  have hg2 : aget (normalizeKey nm) (aset (normalizeKey nm) (⟨d, today⟩ : Entry) σ1.permName)
      = some ⟨d, today⟩ :=
    aget_aset_self (normalizeKey nm) ⟨d, today⟩ σ1.permName
  have hunf : unfollow w today
      { σ1 with
        permName := aset (normalizeKey nm) ⟨d, today⟩ σ1.permName
        permId := aset ident (normalizeKey nm) σ1.permId } ident =
      (.ok (some nm),
       { σ1 with
         permName := adel (normalizeKey nm) (aset (normalizeKey nm) ⟨d, today⟩ σ1.permName)
         permId := adel ident (aset ident (normalizeKey nm) σ1.permId) }, false) := by
    unfold unfollow
    simp only [hg1, Option.some_bind, hg2]
    rw [get_root_perm_fresh w today _ TVRAGE_FULL_SHOW_INFO ident (normalizeKey nm)
        ⟨d, today⟩ (by rw [hnorm]; exact hg1) hg2 (stale_today_false today)]
    simp only [hname, hg1, htext]
  refine ⟨by rw [hfoll], ?_, ?_, ?_⟩
  · rw [hfoll]
    show (unfollow w today _ ident).2.1.permName = σ.permName
    rw [hunf]
    show adel (normalizeKey nm) (aset (normalizeKey nm) ⟨d, today⟩ σ1.permName) = σ.permName
    rw [hpn3]
    exact adel_append_of_aget_none (normalizeKey nm) ⟨d, today⟩ σ.permName hcoll
  · rw [hfoll]
    show (unfollow w today _ ident).2.1.permId = σ.permId
    rw [hunf]
    show adel ident (aset ident (normalizeKey nm) σ1.permId) = σ.permId
    rw [hpi3]
    exact adel_append_of_aget_none ident (normalizeKey nm) σ.permId hid
  · rw [hfoll]
    show (unfollow w today _ ident).1 = .ok (some nm)
    rw [hunf]

/-- Witness for the amended C7 at the concrete unfollowed show 7. -/
theorem follow_unfollow_round_trip_witness :
    aget "7" stateC1.permId = none ∧
    (follow wOffline day20200301 stateC1 "7").1 = .ok "Example" ∧
    ((unfollow wOffline day20200301 (follow wOffline day20200301 stateC1 "7").2.1 "7").2.1).permName
      = stateC1.permName ∧
    ((unfollow wOffline day20200301 (follow wOffline day20200301 stateC1 "7").2.1 "7").2.1).permId
      = stateC1.permId :=
  have h := follow_unfollow_round_trip wOffline day20200301 stateC1 "7" exampleDoc stateC1
    false ⟨some "Example"⟩ "Example" rfl (by decide) (by decide) rfl rfl rfl
  ⟨rfl, h.1, h.2.1, h.2.2.1⟩

/-- Success half of the probe's memoization: once the flag is set, every
later call returns reachable without touching the network. -/
theorem ica_memoized_success (w : World) (σ : State) (hflag : σ.connFlag = true) :
    internet_connection_available w σ = (.ok true, σ) := by
  simp [internet_connection_available, hflag]

/-- C8: on the failing input — connectivity flag unset, network down —
the probe does not swallow the failure and leave it uncached for the next
call: evaluating the handler clause `except urllib.URLError` raises
`AttributeError` (the class lives in `urllib.error`), which aborts the
caller; the flag stays unset.  (Only success is ever cached, per
`ica_memoized_success`.) -/
theorem probe_failure_aborts :
    stateC1.connFlag = false ∧ wOffline.netUp = false
    ∧ internet_connection_available wOffline stateC1 = (.error .attributeError, stateC1) := by
  exact ⟨rfl, rfl, by decide⟩

/-- C9: for every store whose followed shows all have fresh permanent
records (so the scan is read-only), readable show ids linked back to
their name files, and well-formed documents, `check_followed_shows`
yields exactly one next-episode record per followed show whose own
document has a qualifying next episode — each record carrying that show's
own name, season, number, title and air date — and silently omits shows
with no qualifying episode, with no error and no state change. -/
theorem check_followed_yields_one_per_show (w : World) (today : Nat) (σ : State)
    (delay : Int) (sd : Bool)
    (hcond : ∀ p ∈ σ.permName,
       ∃ sid, p.2.content.showid.bind Elem.text = some sid
         ∧ normalizeKey sid = sid
         ∧ aget sid σ.permId = some p.1
         ∧ aget p.1 σ.permName = some p.2
         ∧ stale p.2.mtime today = false
         ∧ wfShowDoc p.2.content = true) :
    check_followed_shows w today σ delay sd = ((specItems today delay sd σ.permName, none), σ) :=
  checkLoop_eq w today delay sd σ σ.permName hcond

/-- Witness for C9: two followed shows, one with a qualifying episode and
one without; exactly one record is yielded, carrying the qualifying
show's own fields. -/
theorem check_followed_yields_one_per_show_witness :
    check_followed_shows wOffline day20200301 stateC9 0 false
      = ((specItems day20200301 0 false stateC9.permName, none), stateC9) ∧
    specItems day20200301 0 false stateC9.permName
      = [{ name := "Example", season := some "1", number := "2",
           title := some "Late", air_date := "2020-06-01" }] ∧
    stateC9.permName.length = 2 :=
  ⟨check_followed_yields_one_per_show wOffline day20200301 stateC9 0 false
    (by
      intro p hp
      simp only [stateC9, List.mem_cons, List.mem_singleton, List.not_mem_nil,
                 or_false] at hp
      rcases hp with rfl | rfl
      · exact ⟨"7", by decide, by decide, by decide, by decide, by decide, by decide⟩
      · exact ⟨"5", by decide, by decide, by decide, by decide, by decide, by decide⟩),
   by decide, rfl⟩

/-- C10: `clear_cache` empties exactly the two temporary cache
directories (search-result cache and show-document cache) and leaves
every permanent record — id-keyed and name-keyed — and the connectivity
flag untouched, for every state of the stores. -/
theorem clear_cache_frame (σ : State) :
    (clear_cache σ).permName = σ.permName
      ∧ (clear_cache σ).permId = σ.permId
      ∧ (clear_cache σ).cacheResearch = []
      ∧ (clear_cache σ).cacheShows = []
      ∧ (clear_cache σ).connFlag = σ.connFlag :=
  ⟨rfl, rfl, remove_folder_content_eq_nil σ.cacheResearch,
   remove_folder_content_eq_nil σ.cacheShows, rfl⟩

end TVS
